import Mathlib

/-!
Verification of the gfs-update pipeline (src/server/gfs-update.js).

The source is shallowly embedded: each pipeline stage becomes a pure Lean
function over an explicit filesystem / server-pool / remote-store state, with
the behaviour of the network, the external grib2json decoder and the object
store passed in as parameters.  Times are epoch milliseconds (`Int`).

The helper modules `gfs.js`, `aws.js` and `tool.js` are not part of the
source tree; where a definition depends on them it is modelled from the
specification, and each such definition carries a doc comment saying so.
In particular the path algebra (a pure, injective function of a Product's
or Layer's identity, per the spec's data-model invariant) is modelled by
using the identity itself as the filesystem key.
-/

namespace GfsUpdate

/-- Modelled from the spec: a Cycle is a timestamp on a fixed 6-hour grid
(`gfs.js` is not under src).  `CYCLE_PERIOD` is 6 hours in milliseconds. -/
def CYCLE_PERIOD : Int := 21600000

/-- Modelled from the spec: `gfs.cycle(date)` constructs "the Cycle at or
after" the given time, i.e. rounds up to the grid (`gfs.js` not under src). -/
def cycleFromDate (t : Int) : Int :=
  CYCLE_PERIOD * ((t + (CYCLE_PERIOD - 1)) / CYCLE_PERIOD)

/-- Modelled from the spec: `cycle.next()` steps to the adjacent grid point. -/
def cycleNext (c : Int) : Int := c + CYCLE_PERIOD

/-- Modelled from the spec: `cycle.previous()` steps back one grid point. -/
def cyclePrevious (c : Int) : Int := c - CYCLE_PERIOD

/-- A Product is identified by (type, Cycle, forecast-hour offset);
`gfs.product(type, cycle, forecastHour)`. -/
structure Product where
  type : String
  cycle : Int
  forecastHour : Int
deriving DecidableEq, Repr

/-- Modelled from the spec: `product.date()` is the Cycle time plus the
forecast offset in hours (`gfs.js` not under src). -/
def Product.date (p : Product) : Int := p.cycle + p.forecastHour * 3600000

/-- A Recipe: named extraction configuration, from `LAYER_RECIPES`. -/
structure Recipe where
  name : String
  filter : String
  description : String
deriving DecidableEq, Repr

/-- A Layer is identified by (Recipe, Product, is-current flag);
`gfs.layer(recipe, product, isCurrent)`. -/
structure Layer where
  recipe : Recipe
  product : Product
  isCurrent : Bool
deriving DecidableEq, Repr

/-- Modelled from the spec: `layer.previous()` steps the underlying Product
backward one grid period (`gfs.js` not under src). -/
def Layer.previous (l : Layer) : Layer :=
  { l with product := { l.product with cycle := l.product.cycle - CYCLE_PERIOD } }

/-- The source's `LAYER_RECIPES` table (gfs-update.js:32-75), in
`Object.keys` (insertion) order. -/
def LAYER_RECIPES : List Recipe :=
  [⟨"wind-isobaric-10hPa", "--fc 2 --fp wind --fs 100 --fv 1000", "Wind Velocity @ 10 hPa"⟩,
   ⟨"wind-isobaric-70hPa", "--fc 2 --fp wind --fs 100 --fv 7000", "Wind Velocity @ 70 hPa"⟩,
   ⟨"wind-isobaric-250hPa", "--fc 2 --fp wind --fs 100 --fv 25000", "Wind Velocity @ 250 hPa"⟩,
   ⟨"wind-isobaric-500hPa", "--fc 2 --fp wind --fs 100 --fv 50000", "Wind Velocity @ 500 hPa"⟩,
   ⟨"wind-isobaric-700hPa", "--fc 2 --fp wind --fs 100 --fv 70000", "Wind Velocity @ 700 hPa"⟩,
   ⟨"wind-isobaric-850hPa", "--fc 2 --fp wind --fs 100 --fv 85000", "Wind Velocity @ 850 hPa"⟩,
   ⟨"wind-isobaric-1000hPa", "--fc 2 --fp wind --fs 100 --fv 100000", "Wind Velocity @ 1000 hPa"⟩]

/-- The `wi1000` recipe used by `copyCurrent` (gfs-update.js:316). -/
def wi1000 : Recipe :=
  ⟨"wind-isobaric-1000hPa", "--fc 2 --fp wind --fs 100 --fv 100000", "Wind Velocity @ 1000 hPa"⟩

/-- The source's `PRODUCT_TYPES` (gfs-update.js:29). -/
def PRODUCT_TYPES : List String := ["1.0"]

/-- The initial server list (gfs-update.js:77-80): NOMADS and NCEP. -/
def serversInit : List String := ["NOMADS", "NCEP"]

/-- Decoder output record header: `record.header.refTime` and
`record.header.forecastTime`, as read back from layer JSON files. -/
structure GribHeader where
  refTime : Int
  forecastTime : Int
deriving DecidableEq, Repr

/-- A decoder output record; `meta` is the block `processLayer` attaches
(here reduced to the one live field, the product date). -/
structure GribRecord where
  header : GribHeader
  meta : Option Int
deriving DecidableEq, Repr

/-- Filesystem keys.  The source addresses files through the path algebra of
`gfs.js` (not under src); per the spec's invariant a Product's or Layer's
path is a pure function of its identity, so the identity serves as the key.
A current-alias Layer's path depends only on the recipe name (stable alias),
a dated Layer's path on recipe name, cycle and forecast hour. -/
inductive FsKey
  | gribFile (p : Product)
  | layerFile (recipeName : String) (cycle : Int) (forecastHour : Int)
  | currentFile (recipeName : String)
deriving DecidableEq, Repr

/-- Contents of a local file: a raw downloaded product, or layer JSON. -/
inductive FileContent
  | raw
  | json (records : List GribRecord)
deriving DecidableEq, Repr

/-- The local filesystem: an association list, later writes shadowing
earlier ones. -/
abbrev FS := List (FsKey × FileContent)

def lookupFS (fs : FS) (k : FsKey) : Option FileContent :=
  match fs with
  | [] => none
  | (k2, c) :: rest => if k = k2 then some c else lookupFS rest k

/-- `fs.existsSync` on a key. -/
def existsFS (fs : FS) (k : FsKey) : Bool := (lookupFS fs k).isSome

/-- `fs.writeFileSync` / `fs.renameSync` into place. -/
def writeFS (fs : FS) (k : FsKey) (c : FileContent) : FS := (k, c) :: fs

/-- Local key of a Product's raw file, `product.path(GRIB_HOME)`. -/
def Product.localKey (p : Product) : FsKey := .gribFile p

/-- Key of a Layer's file, `layer.path(LAYER_HOME)`; the is-current flag
selects the stable alias path (gfs.js path algebra, see `FsKey`). -/
def Layer.fileKey (l : Layer) : FsKey :=
  if l.isCurrent then .currentFile l.recipe.name
  else .layerFile l.recipe.name l.product.cycle l.product.forecastHour

/-! ## Fetch stage (gfs-update.js:113-169) -/

/-- `nextServer()` (gfs-update.js:113-119): pop the last server, or fall
back to NOMADS (leaving the pool empty) when exhausted. -/
def nextServer (pool : List String) : String × List String :=
  match pool.getLast? with
  | none => ("NOMADS", pool)
  | some s => (s, pool.dropLast)

/-- `releaseServer(server)` (gfs-update.js:121-123): push onto the pool. -/
def releaseServer (pool : List String) (server : String) : List String :=
  pool ++ [server]

/-- Behaviour of one `tool.download` network attempt: fulfilled with a
status code, or rejected with a transport error. -/
inductive NetOutcome
  | ok (statusCode : Nat)
  | transportError
deriving DecidableEq, Repr

/-- State threaded through `download`: local files and the server pool. -/
structure DownloadState where
  fs : FS
  pool : List String
deriving DecidableEq, Repr

/-- Result of one `download(product)` call: the promise outcome (`.ok` =
resolved, `.error` = rejected), the updated state, and how many network
requests were issued. -/
structure DownloadOutcome where
  result : Except Unit Product
  fs : FS
  pool : List String
  networkOps : Nat
deriving Repr

/-- `download(product)` (gfs-update.js:132-167).  If the local file exists,
resolve immediately.  Otherwise pop a server and attempt the download
(`net` is the network's behaviour for this attempt): on a fulfilled result
the server is released and, when the status code is below 300, the file is
moved into place; a transport error propagates as a rejection (the `null`
rejection handler at line 159), without releasing the server. -/
def download (net : NetOutcome) (st : DownloadState) (product : Product) :
    DownloadOutcome :=
  let localPath := product.localKey
  if existsFS st.fs localPath then
    ⟨.ok product, st.fs, st.pool, 0⟩
  else
    let sp := nextServer st.pool
    match net with
    | .ok statusCode =>
        let pool2 := releaseServer sp.2 sp.1
        if 300 ≤ statusCode then
          ⟨.ok product, st.fs, pool2, 1⟩
        else
          ⟨.ok product, writeFS st.fs localPath .raw, pool2, 1⟩
    | .transportError =>
        ⟨.error (), st.fs, sp.2, 1⟩

end GfsUpdate

namespace GfsUpdate

/-! ## Claim C2: fetch idempotency -/

/-- C2: if a Product's local file already exists, `download` resolves
immediately with the Product, touches neither the pool nor the filesystem
and performs no network operation; consequently, running it twice with the
file persisting after the first call performs at most one network request
in total and the second call resolves from the existing file. -/
theorem fetch_idempotent (net net2 : NetOutcome) (st : DownloadState)
    (p : Product) :
    (existsFS st.fs p.localKey = true →
      download net st p =
        ⟨.ok p, st.fs, st.pool, 0⟩) ∧
    (existsFS (download net st p).fs p.localKey = true →
      (download net2 ⟨(download net st p).fs, (download net st p).pool⟩ p).networkOps = 0 ∧
      (download net2 ⟨(download net st p).fs, (download net st p).pool⟩ p).result = .ok p ∧
      (download net st p).networkOps +
        (download net2 ⟨(download net st p).fs, (download net st p).pool⟩ p).networkOps ≤ 1) := by
  constructor
  · intro h
    simp [download, h]
  · intro h
    have h2 : ∀ q : DownloadState, existsFS q.fs p.localKey = true →
        download net2 q p = ⟨.ok p, q.fs, q.pool, 0⟩ := by
      intro q hq
      simp [download, hq]
    rw [h2 ⟨(download net st p).fs, (download net st p).pool⟩ h]
    refine ⟨rfl, rfl, ?_⟩
    unfold download
    dsimp only
    split
    · simp
    · split
      · split <;> simp
      · simp

/-- Sample product used by concrete witnesses. -/
def pA : Product := ⟨"1.0", 0, 0⟩

/-- Sample filesystem in which `pA`'s raw file already exists. -/
def fsA : FS := [(pA.localKey, .raw)]

/-- Witness for C2 at a concrete input: the file for the product is present,
so both calls skip the network. -/
theorem fetch_idempotent_witness :
    existsFS fsA pA.localKey = true ∧
    download .transportError ⟨fsA, serversInit⟩ pA = ⟨.ok pA, fsA, serversInit, 0⟩ ∧
    (download .transportError
      ⟨(download .transportError ⟨fsA, serversInit⟩ pA).fs,
       (download .transportError ⟨fsA, serversInit⟩ pA).pool⟩ pA).networkOps = 0 :=
  ⟨by decide,
   (fetch_idempotent .transportError .transportError ⟨fsA, serversInit⟩ pA).1 (by decide),
   ((fetch_idempotent .transportError .transportError ⟨fsA, serversInit⟩ pA).2 (by decide)).1⟩

/-! ## Claim C5: fetch failure handling -/

/-- Counterexample for C5 as stated.  On a transport error (gfs-update.js:159
passes `null` as the rejection handler) the promise is rejected — it does not
resolve with the Product — and the popped server "NCEP" is never released
back to the pool. -/
theorem fetch_failure_counterexample :
    (download .transportError ⟨[], serversInit⟩ pA).result = .error () ∧
    (download .transportError ⟨[], serversInit⟩ pA).pool = ["NOMADS"] :=
  ⟨rfl, rfl⟩

/-- C5 amended: when the local file is absent, a fulfilled response with
status code at or above 300 releases the server and resolves with the
Product, writing no file; a transport error rejects the promise and the
server is not released.  In both cases exactly one network attempt is made
(no retry within the run). -/
theorem fetch_failure_amended (net : NetOutcome) (st : DownloadState)
    (p : Product) (habsent : existsFS st.fs p.localKey = false) :
    (∀ code, 300 ≤ code → net = .ok code →
      download net st p =
        ⟨.ok p, st.fs,
         releaseServer (nextServer st.pool).2 (nextServer st.pool).1, 1⟩) ∧
    (net = .transportError →
      download net st p = ⟨.error (), st.fs, (nextServer st.pool).2, 1⟩) := by
  constructor
  · intro code hcode hnet
    subst hnet
    simp [download, habsent, hcode]
  · intro hnet
    subst hnet
    simp [download, habsent]

/-- Witness for C5 at concrete inputs: a 404 response resolves with the
Product and restores the pool; a transport error rejects and loses "NCEP". -/
theorem fetch_failure_witness :
    existsFS ([] : FS) pA.localKey = false ∧
    download (.ok 404) ⟨[], serversInit⟩ pA = ⟨.ok pA, [], ["NOMADS", "NCEP"], 1⟩ ∧
    download .transportError ⟨[], serversInit⟩ pA = ⟨.error (), [], ["NOMADS"], 1⟩ :=
  ⟨by decide,
   (fetch_failure_amended (.ok 404) ⟨[], serversInit⟩ pA (by decide)).1 404 (by norm_num) rfl,
   (fetch_failure_amended .transportError ⟨[], serversInit⟩ pA (by decide)).2 rfl⟩

/-! ## Extract stage (gfs-update.js:171-247) -/

/-- Behaviour of one `tool.grib2json` decoder invocation: the process exit
code and the structured records written to the temporary output file. -/
structure DecoderRun where
  returnCode : Int
  output : List GribRecord
deriving DecidableEq, Repr

/-- Outcome of the promise returned by `extractLayer`: a thrown read error,
a rejection carrying the decoder's exit code, a null result, or resolution
with the Layer. -/
inductive ExtractResult
  | crash
  | rejectedCode (c : Int)
  | nullResult
  | resolved (l : Layer)
deriving DecidableEq, Repr

/-- Result of `extractLayer`: promise outcome, resulting filesystem, and
whether the external decoder was invoked. -/
structure ExtractOutcome where
  result : ExtractResult
  fs : FS
  decoderInvoked : Bool
deriving DecidableEq, Repr

/-- `processLayer(layer, path)` (gfs-update.js:177-197): null when the
decoder emitted zero records, otherwise the records with the meta block
(carrying `layer.product.date()`) attached to each. -/
def processLayer (l : Layer) (data : List GribRecord) : Option (List GribRecord) :=
  if data.length = 0 then none
  else some (data.map (fun r => { r with meta := some l.product.date }))

/-- The decode-and-write tail of `extractLayer` (gfs-update.js:217-237):
a non-zero decoder exit code rejects; zero records resolve null with no
write; otherwise the layer file is written and the Layer resolved. -/
def extractDecode (dec : DecoderRun) (fs : FS) (l : Layer) : ExtractOutcome :=
  if dec.returnCode ≠ 0 then ⟨.rejectedCode dec.returnCode, fs, true⟩
  else
    match processLayer l dec.output with
    | none => ⟨.nullResult, fs, true⟩
    | some data => ⟨.resolved l, writeFS fs l.fileKey (.json data), true⟩

/-- `extractLayer(layer)` (gfs-update.js:199-238).  Missing source product:
null.  Existing layer file whose first record's `header.refTime` is at or
after the product's cycle time: resolve the Layer without decoding.  An
existing file that is not readable layer JSON crashes the read (the
`[0].header` access).  Otherwise decode. -/
def extractLayer (dec : DecoderRun) (fs : FS) (l : Layer) : ExtractOutcome :=
  if ¬ existsFS fs l.product.localKey then ⟨.nullResult, fs, false⟩
  else
    match lookupFS fs l.fileKey with
    | some (.json (r :: _)) =>
        if l.product.cycle ≤ r.header.refTime then ⟨.resolved l, fs, false⟩
        else extractDecode dec fs l
    | some (.json []) => ⟨.crash, fs, false⟩
    | some .raw => ⟨.crash, fs, false⟩
    | none => extractDecode dec fs l

/-- `extractLayers(product)` (gfs-update.js:242-247): one Layer per recipe
in `LAYER_RECIPES`, fanned out over `extractLayer`. -/
def extractLayers (product : Product) : List Layer :=
  LAYER_RECIPES.map (fun recipe => ⟨recipe, product, false⟩)

/-! ## Publish stage (gfs-update.js:249-277) -/

/-- A JavaScript value a publish promise can resolve with. -/
inductive PushVal
  | nullV
  | boolV (b : Bool)
  | resV (v : Int)
deriving DecidableEq, Repr

/-- Result of `pushLayer`: the resolution value and whether the conditional
upload actually stored the object. -/
structure PushOutcome where
  result : PushVal
  uploaded : Bool
deriving DecidableEq, Repr

/-- The remote S3 key of a Layer, `layer.path(aws.S3_LAYER_HOME)`: the same
pure path algebra under the S3 prefix, so the identity key serves. -/
def S3Key (l : Layer) : FsKey := l.fileKey

/-- Source `isNewerThan(existing)` (gfs-update.js:262-265): upload when the
existing object carries no "reference-time" metadata, when the stored
reference time is strictly older than this Layer's cycle time, or when the
Layer is flagged current. -/
def isNewerThan (l : Layer) (existingRefTime : Option Int) : Bool :=
  match existingRefTime with
  | none => true
  | some refTime => decide (refTime < l.product.cycle) || l.isCurrent

/-- `pushLayer(layer)` (gfs-update.js:249-271).  `remoteRef` maps a remote
key to the stored "reference-time" metadata, if the object exists and has
the tag; `storeResult` is the value `aws.uploadFile` fulfills with (the
upload result — `aws.js` is not under src, its conditional upload is
modelled from the spec).  The source's `.then(function(result) ... return
true)` discards that value and resolves `true`. -/
def pushLayer (fs : FS) (remoteRef : FsKey → Option Int) (storeResult : Int)
    (olayer : Option Layer) : PushOutcome :=
  match olayer with
  | none => ⟨.nullV, false⟩
  | some layer =>
    if ¬ existsFS fs layer.fileKey then ⟨.nullV, false⟩
    else
      let uploaded := isNewerThan layer (remoteRef (S3Key layer))
      ⟨.boolV true, uploaded⟩

/-! ## Claim C1: conditional publish -/

/-- C1: for a Layer whose local file exists, the upload is performed if and
only if the remote object has no stored reference time, or the stored
reference time is strictly older than the Layer's cycle reference time, or
the Layer's is-current flag is set; in particular a current Layer always
uploads, and a non-current Layer against a newer-or-equal stored reference
time never does. -/
theorem conditional_publish (fs : FS) (remoteRef : FsKey → Option Int)
    (sr : Int) (l : Layer) (hfile : existsFS fs l.fileKey = true) :
    ((pushLayer fs remoteRef sr (some l)).uploaded = true ↔
      remoteRef (S3Key l) = none ∨
      (∃ r, remoteRef (S3Key l) = some r ∧ r < l.product.cycle) ∨
      l.isCurrent = true) ∧
    (l.isCurrent = true → (pushLayer fs remoteRef sr (some l)).uploaded = true) ∧
    (l.isCurrent = false →
      ∀ r, remoteRef (S3Key l) = some r → l.product.cycle ≤ r →
        (pushLayer fs remoteRef sr (some l)).uploaded = false) := by
  have hpush : pushLayer fs remoteRef sr (some l) =
      ⟨.boolV true, isNewerThan l (remoteRef (S3Key l))⟩ := by
    simp [pushLayer, hfile]
  have hmain : (pushLayer fs remoteRef sr (some l)).uploaded = true ↔
      remoteRef (S3Key l) = none ∨
      (∃ r, remoteRef (S3Key l) = some r ∧ r < l.product.cycle) ∨
      l.isCurrent = true := by
    rw [hpush]
    show isNewerThan l (remoteRef (S3Key l)) = true ↔ _
    cases hr : remoteRef (S3Key l) with
    | none => simp [isNewerThan]
    | some r =>
        simp only [isNewerThan, Bool.or_eq_true, decide_eq_true_iff]
        constructor
        · rintro (h | h)
          · exact .inr (.inl ⟨r, rfl, h⟩)
          · exact .inr (.inr h)
        · rintro (h | ⟨r2, hr2, hlt⟩ | h)
          · simp at h
          · injection hr2 with hh
            subst hh
            exact .inl hlt
          · exact .inr h
  refine ⟨hmain, ?_, ?_⟩
  · intro hcur
    exact hmain.mpr (.inr (.inr hcur))
  · intro hcur r hr hge
    cases h2 : (pushLayer fs remoteRef sr (some l)).uploaded with
    | false => rfl
    | true =>
        rcases hmain.mp h2 with h | ⟨r2, hr2, hlt⟩ | h
        · rw [hr] at h; simp at h
        · rw [hr] at hr2
          injection hr2 with hh
          omega
        · rw [hcur] at h; simp at h

/-- Sample non-current layer used by concrete witnesses. -/
def lA : Layer := ⟨wi1000, pA, false⟩

/-- Sample filesystem in which `lA`'s layer file exists with reference time
0 and forecast offset 0. -/
def fsB : FS := [(lA.fileKey, .json [⟨⟨0, 0⟩, none⟩])]

/-- Witness for C1 at a concrete input: file present, remote stores an
older reference time, so the upload happens. -/
theorem conditional_publish_witness :
    existsFS fsB lA.fileKey = true ∧
    ((pushLayer fsB (fun _ => some (-1)) 7 (some lA)).uploaded = true ↔
      (fun _ : FsKey => some (-1 : Int)) (S3Key lA) = none ∨
      (∃ r, (fun _ : FsKey => some (-1 : Int)) (S3Key lA) = some r ∧ r < lA.product.cycle) ∨
      lA.isCurrent = true) :=
  ⟨by decide, (conditional_publish fsB (fun _ => some (-1)) 7 lA (by decide)).1⟩

/-! ## Claim C3: extraction staleness check -/

/-- C3: when the target layer file exists, its first record's embedded
reference time decides the extraction — at or after the product's cycle
time the decoder is not invoked and nothing is written; strictly older, the
decoder is invoked and (when it succeeds with records) the layer file is
rewritten. -/
theorem extract_staleness (dec : DecoderRun) (fs : FS) (l : Layer)
    (r : GribRecord) (rest : List GribRecord)
    (hsrc : existsFS fs l.product.localKey = true)
    (hlayer : lookupFS fs l.fileKey = some (.json (r :: rest))) :
    (l.product.cycle ≤ r.header.refTime →
      extractLayer dec fs l = ⟨.resolved l, fs, false⟩) ∧
    (r.header.refTime < l.product.cycle →
      (extractLayer dec fs l).decoderInvoked = true) ∧
    (r.header.refTime < l.product.cycle → dec.returnCode = 0 →
      dec.output ≠ [] →
      extractLayer dec fs l =
        ⟨.resolved l,
         writeFS fs l.fileKey
           (.json (dec.output.map (fun rec => { rec with meta := some l.product.date }))),
         true⟩) := by
  refine ⟨?_, ?_, ?_⟩
  · intro hle
    simp [extractLayer, hsrc, hlayer, hle]
  · intro hlt
    have hnle : ¬ l.product.cycle ≤ r.header.refTime := by omega
    have hstep : extractLayer dec fs l = extractDecode dec fs l := by
      simp [extractLayer, hsrc, hlayer, hnle]
    rw [hstep]
    unfold extractDecode
    split
    · rfl
    · split <;> rfl
  · intro hlt hrc hne
    have hnle : ¬ l.product.cycle ≤ r.header.refTime := by omega
    have hstep : extractLayer dec fs l = extractDecode dec fs l := by
      simp [extractLayer, hsrc, hlayer, hnle]
    rw [hstep]
    have hproc : processLayer l dec.output =
        some (dec.output.map (fun rec => { rec with meta := some l.product.date })) := by
      unfold processLayer
      rw [if_neg (by simp [hne])]
    unfold extractDecode
    rw [if_neg (by omega), hproc]

/-- Decoder behaviour sample: exit code 0 with one record. -/
def decA : DecoderRun := ⟨0, [⟨⟨100, 0⟩, none⟩]⟩

/-- Filesystem holding `pA`'s raw file and `lA`'s layer file (reference
time 0). -/
def fsC : FS := [(pA.localKey, .raw), (lA.fileKey, .json [⟨⟨0, 0⟩, none⟩])]

/-- Witness for C3 at a concrete input: the existing layer's reference
time 0 equals the cycle time, so extraction skips without decoding. -/
theorem extract_staleness_witness :
    existsFS fsC lA.product.localKey = true ∧
    lookupFS fsC lA.fileKey = some (.json [⟨⟨0, 0⟩, none⟩]) ∧
    extractLayer decA fsC lA = ⟨.resolved lA, fsC, false⟩ :=
  ⟨by decide, by decide,
   (extract_staleness decA fsC lA ⟨⟨0, 0⟩, none⟩ [] (by decide) (by decide)).1 (by decide)⟩

/-! ## Claim C4: empty decoder output propagates as a no-op -/

/-- C4: whenever the decoder is actually invoked and exits 0 with zero
records, extraction resolves null and writes nothing; and publish, given a
null Layer or a Layer whose local file is missing, performs no upload and
resolves null. -/
theorem empty_result_noop (dec : DecoderRun) (fs : FS)
    (remoteRef : FsKey → Option Int) (sr : Int) (l : Layer)
    (hrc : dec.returnCode = 0) (hempty : dec.output = []) :
    ((extractLayer dec fs l).decoderInvoked = true →
      (extractLayer dec fs l).result = .nullResult ∧
      (extractLayer dec fs l).fs = fs) ∧
    pushLayer fs remoteRef sr none = ⟨.nullV, false⟩ ∧
    (∀ l2 : Layer, existsFS fs l2.fileKey = false →
      pushLayer fs remoteRef sr (some l2) = ⟨.nullV, false⟩) := by
  have hdecode : extractDecode dec fs l = ⟨.nullResult, fs, true⟩ := by
    unfold extractDecode
    rw [if_neg (by simp [hrc])]
    have : processLayer l dec.output = none := by
      unfold processLayer
      rw [hempty]
      simp
    rw [this]
  have hcases : extractLayer dec fs l = ⟨.nullResult, fs, false⟩ ∨
      extractLayer dec fs l = ⟨.resolved l, fs, false⟩ ∨
      extractLayer dec fs l = ⟨.crash, fs, false⟩ ∨
      extractLayer dec fs l = extractDecode dec fs l := by
    cases hs : existsFS fs l.product.localKey with
    | false => exact .inl (by simp [extractLayer, hs])
    | true =>
        cases hm : lookupFS fs l.fileKey with
        | none => exact .inr (.inr (.inr (by simp [extractLayer, hs, hm])))
        | some c =>
            cases c with
            | raw => exact .inr (.inr (.inl (by simp [extractLayer, hs, hm])))
            | json recs =>
                cases recs with
                | nil => exact .inr (.inr (.inl (by simp [extractLayer, hs, hm])))
                | cons r rest =>
                    by_cases hle : l.product.cycle ≤ r.header.refTime
                    · exact .inr (.inl (by simp [extractLayer, hs, hm, hle]))
                    · exact .inr (.inr (.inr (by simp [extractLayer, hs, hm, hle])))
  refine ⟨?_, rfl, ?_⟩
  · intro hinv
    rcases hcases with h | h | h | h
    · rw [h] at hinv; simp at hinv
    · rw [h] at hinv; simp at hinv
    · rw [h] at hinv; simp at hinv
    · rw [h, hdecode]
      exact ⟨rfl, rfl⟩
  · intro l2 h2
    simp [pushLayer, h2]

/-- Decoder behaviour sample: exit code 0 with zero records. -/
def decB : DecoderRun := ⟨0, []⟩

/-- Witness for C4 at a concrete input: source product present, no layer
file, decoder emits zero records — extraction is a null no-op and publish
of null or of a missing-file Layer is a null no-op. -/
theorem empty_result_noop_witness :
    (extractLayer decB fsA lA).decoderInvoked = true ∧
    (extractLayer decB fsA lA).result = .nullResult ∧
    (extractLayer decB fsA lA).fs = fsA ∧
    pushLayer fsA (fun _ => none) 7 none = ⟨.nullV, false⟩ ∧
    existsFS fsA lA.fileKey = false ∧
    pushLayer fsA (fun _ => none) 7 (some lA) = ⟨.nullV, false⟩ := by
  have h := empty_result_noop decB fsA (fun _ => none) 7 lA (by decide) (by decide)
  exact ⟨by decide, (h.1 (by decide)).1, (h.1 (by decide)).2, h.2.1, by decide,
    h.2.2 lA (by decide)⟩

/-! ## Claim C6: publish resolution value -/

/-- Counterexample for C6 as stated.  With the layer file present and no
remote object, the upload is performed and `aws.uploadFile` fulfills with
the store's result (here 7), but `pushLayer` resolves with the constant
`true` (gfs-update.js:269), not with that result. -/
theorem publish_result_counterexample :
    (pushLayer fsB (fun _ => none) 7 (some lA)).uploaded = true ∧
    (pushLayer fsB (fun _ => none) 7 (some lA)).result = .boolV true ∧
    (pushLayer fsB (fun _ => none) 7 (some lA)).result ≠ .resV 7 := by
  decide

/-- C6 amended: an uploaded (or even conditionally skipped) Layer whose
file exists resolves with the constant `true`, not the store's upload
result; a null Layer or a Layer whose local file is missing resolves null.
-/
theorem publish_result_amended (fs : FS) (remoteRef : FsKey → Option Int)
    (sr : Int) :
    pushLayer fs remoteRef sr none = ⟨.nullV, false⟩ ∧
    (∀ l : Layer, existsFS fs l.fileKey = false →
      pushLayer fs remoteRef sr (some l) = ⟨.nullV, false⟩) ∧
    (∀ l : Layer, existsFS fs l.fileKey = true →
      (pushLayer fs remoteRef sr (some l)).result = .boolV true) := by
  refine ⟨rfl, ?_, ?_⟩
  · intro l h
    simp [pushLayer, h]
  · intro l h
    simp [pushLayer, h]

/-- Witness for C6's amended statement at concrete inputs. -/
theorem publish_result_amended_witness :
    pushLayer fsB (fun _ => none) 7 none = ⟨.nullV, false⟩ ∧
    existsFS fsB lA.fileKey = true ∧
    (pushLayer fsB (fun _ => none) 7 (some lA)).result = .boolV true :=
  ⟨(publish_result_amended fsB (fun _ => none) 7).1, by decide,
   (publish_result_amended fsB (fun _ => none) 7).2.2 lA (by decide)⟩

/-! ## Claim C10: the staleness skip still flows into publish -/

/-- C10: a Layer skipped by the extraction staleness check resolves with
the Layer itself (not null), so publish is still attempted for it — its
result is not the null short-circuit — and only the remote conditional
comparison decides whether an upload happens; in particular a non-current
Layer against a newer-or-equal stored reference time is not re-uploaded. -/
theorem skip_still_published (dec : DecoderRun) (fs : FS)
    (remoteRef : FsKey → Option Int) (sr : Int) (l : Layer)
    (r : GribRecord) (rest : List GribRecord)
    (hsrc : existsFS fs l.product.localKey = true)
    (hlayer : lookupFS fs l.fileKey = some (.json (r :: rest)))
    (hfresh : l.product.cycle ≤ r.header.refTime) :
    extractLayer dec fs l = ⟨.resolved l, fs, false⟩ ∧
    (extractLayer dec fs l).result ≠ .nullResult ∧
    (pushLayer fs remoteRef sr (some l)).result ≠ .nullV ∧
    ((pushLayer fs remoteRef sr (some l)).uploaded =
      isNewerThan l (remoteRef (S3Key l))) ∧
    (l.isCurrent = false →
      ∀ rt, remoteRef (S3Key l) = some rt → l.product.cycle ≤ rt →
        (pushLayer fs remoteRef sr (some l)).uploaded = false) := by
  have hfile : existsFS fs l.fileKey = true := by
    simp [existsFS, hlayer]
  have hskip : extractLayer dec fs l = ⟨.resolved l, fs, false⟩ := by
    simp [extractLayer, hsrc, hlayer, hfresh]
  have hpush : pushLayer fs remoteRef sr (some l) =
      ⟨.boolV true, isNewerThan l (remoteRef (S3Key l))⟩ := by
    simp [pushLayer, hfile]
  refine ⟨hskip, by rw [hskip]; simp, by rw [hpush]; simp, by rw [hpush], ?_⟩
  intro hcur rt hrt hge
  rw [hpush]
  simp [isNewerThan, hrt, hcur]
  omega

/-! ## Cycle scheduler (gfs-update.js:279-307) -/

/-- The loop of `processCycles(bounds)` (gfs-update.js:298-307): starting at
`cycle`, schedule a cycle task and step to `previous()` while the timestamp
stays at or after `stop`. -/
def processCyclesList (stop cycle : Int) : List Int :=
  if h : stop ≤ cycle then cycle :: processCyclesList stop (cycle - CYCLE_PERIOD)
  else []
termination_by (cycle + CYCLE_PERIOD - stop).toNat
decreasing_by
  simp only [CYCLE_PERIOD]
  omega

/-- `processCycles(bounds)` (gfs-update.js:298-307): the cycles scheduled
for the window, walking backward from the Cycle of `from` down to the Cycle
of `until`. -/
def processCycles (fromT untilT : Int) : List Int :=
  processCyclesList (cycleFromDate untilT) (cycleFromDate fromT)

/-- The products one `processCycle(cycle)` builds (gfs-update.js:283-287):
one per declared product type and forecast-hour offset. -/
def cycleProducts (forecasts : List Int) (cycle : Int) : List Product :=
  (PRODUCT_TYPES.map (fun t => forecasts.map (fun h => (⟨t, cycle, h⟩ : Product)))).flatten

/-- Membership in the scheduler's backward walk: exactly the grid-aligned
timestamps between `stop` and `cycle`. -/
theorem mem_processCyclesList (stop cycle : Int) :
    ∀ c, c ∈ processCyclesList stop cycle ↔
      stop ≤ c ∧ c ≤ cycle ∧ CYCLE_PERIOD ∣ (cycle - c) := by
  have key : ∀ (n : Nat) (cyc : Int), (cyc + CYCLE_PERIOD - stop).toNat ≤ n →
      ∀ c, c ∈ processCyclesList stop cyc ↔
        stop ≤ c ∧ c ≤ cyc ∧ CYCLE_PERIOD ∣ (cyc - c) := by
    intro n
    induction n with
    | zero =>
        intro cyc hn c
        rw [processCyclesList, dif_neg (by simp only [CYCLE_PERIOD] at *; omega)]
        simp only [List.not_mem_nil, false_iff]
        rintro ⟨h1, h2, _⟩
        simp only [CYCLE_PERIOD] at *
        omega
    | succ n ih =>
        intro cyc hn c
        by_cases h : stop ≤ cyc
        · rw [processCyclesList, dif_pos h]
          have hrec := ih (cyc - CYCLE_PERIOD)
            (by simp only [CYCLE_PERIOD] at *; omega) c
          simp only [List.mem_cons, hrec]
          simp only [CYCLE_PERIOD] at *
          omega
        · rw [processCyclesList, dif_neg h]
          simp only [List.not_mem_nil, false_iff]
          rintro ⟨h1, h2, _⟩
          exact h (h1.trans h2)
  exact key (cycle + CYCLE_PERIOD - stop).toNat cycle le_rfl

/-- One step of the walk from a point to itself yields the singleton. -/
theorem processCyclesList_self (g : Int) : processCyclesList g g = [g] := by
  rw [processCyclesList, dif_pos le_rfl, processCyclesList,
    dif_neg (by simp only [CYCLE_PERIOD]; omega)]

/-! ## Claim C7: the scheduler window -/

/-- C7: for a window with `until ≤ from`, the cycles processed are exactly
those reached from the Cycle of `from` by stepping `previous()` while at or
after the Cycle of `until` (equivalently, the grid-aligned timestamps in
between); when `from = until` lies on the grid exactly one Cycle is
processed, and each cycle task builds one Product per declared type and
forecast offset. -/
theorem scheduler_window (fromT untilT : Int) (huntil : untilT ≤ fromT) :
    (∀ c, c ∈ processCycles fromT untilT ↔
      cycleFromDate untilT ≤ c ∧ c ≤ cycleFromDate fromT ∧
      CYCLE_PERIOD ∣ (cycleFromDate fromT - c)) ∧
    (∀ k : Int, fromT = CYCLE_PERIOD * k → fromT = untilT →
      processCycles fromT untilT = [fromT]) ∧
    (∀ forecastList : List Int, ∀ cycle : Int,
      cycleProducts forecastList cycle =
        forecastList.map (fun h => (⟨"1.0", cycle, h⟩ : Product))) ∧
    (∀ forecastList : List Int, ∀ cycle : Int,
      (cycleProducts forecastList cycle).length =
        PRODUCT_TYPES.length * forecastList.length) := by
  refine ⟨fun c => mem_processCyclesList _ _ c, ?_, ?_, ?_⟩
  · intro k hk heq
    have hg : cycleFromDate fromT = fromT := by
      subst hk
      simp only [cycleFromDate, CYCLE_PERIOD]
      omega
    unfold processCycles
    rw [← heq, hg]
    exact processCyclesList_self fromT
  · intro forecastList cycle
    simp [cycleProducts, PRODUCT_TYPES]
  · intro forecastList cycle
    simp [cycleProducts, PRODUCT_TYPES]

/-- Witness for C7 at the concrete window from = until = 0 (a grid point)
with forecast offsets [0]. -/
theorem scheduler_window_witness :
    (0 : Int) ≤ 0 ∧
    processCycles 0 0 = [0] ∧
    ((0 : Int) ∈ processCycles 0 0 ↔
      cycleFromDate 0 ≤ 0 ∧ (0 : Int) ≤ cycleFromDate 0 ∧
      CYCLE_PERIOD ∣ (cycleFromDate 0 - 0)) ∧
    cycleProducts [0] 0 = [⟨"1.0", 0, 0⟩] :=
  ⟨le_rfl,
   (scheduler_window 0 0 le_rfl).2.1 0 (by norm_num) rfl,
   (scheduler_window 0 0 le_rfl).1 0,
   (scheduler_window 0 0 le_rfl).2.2.1 [0] 0⟩

/-- Witness for C10 at a concrete input: layer file at reference time 0 for
cycle time 0 skips extraction yet is still offered to publish, where the
remote's stored reference time 0 blocks the re-upload. -/
theorem skip_still_published_witness :
    existsFS fsC lA.product.localKey = true ∧
    lookupFS fsC lA.fileKey = some (.json [⟨⟨0, 0⟩, none⟩]) ∧
    lA.product.cycle ≤ (0 : Int) ∧
    extractLayer decA fsC lA = ⟨.resolved lA, fsC, false⟩ ∧
    (pushLayer fsC (fun _ => some 0) 7 (some lA)).result ≠ .nullV ∧
    (pushLayer fsC (fun _ => some 0) 7 (some lA)).uploaded = false := by
  have h := skip_still_published decA fsC (fun _ => some 0) 7 lA ⟨⟨0, 0⟩, none⟩ []
    (by decide) (by decide) (by decide)
  exact ⟨by decide, by decide, by decide, h.1, h.2.2.1,
    h.2.2.2.2 (by decide) 0 rfl (by decide)⟩

/-! ## Stage throttles (gfs-update.js:169, 240, 273) -/

/-- The three pipeline stages, each wrapped by one process-wide throttle. -/
inductive Stage
  | fetch
  | extract
  | publish
deriving DecidableEq, Repr

/-- The capacities from the source: `download_throttled =
guard(guard.n(servers.length), download)` (line 169),
`extractLayer_throttled = guard(guard.n(2), extractLayer)` (line 240),
`pushLayer_throttled = guard(guard.n(8), pushLayer)` (line 273). -/
def stageCapacity : Stage → Nat
  | .fetch => serversInit.length
  | .extract => 2
  | .publish => 8

/-- Count of in-flight operations per stage.  A single state serves the
whole process: the three throttled wrappers are module-level singletons, so
every concurrently scheduled cycle draws from the same three counters. -/
def ThrottleState := Stage → Nat

/-- At process start nothing is in flight. -/
def initialThrottle : ThrottleState := fun _ => 0

/-- Update one stage's in-flight count. -/
def setStage (st : ThrottleState) (s : Stage) (n : Nat) : ThrottleState :=
  fun s2 => if s2 = s then n else st s2

/-- Modelled from the spec: the `when/guard` contract (spec 4.2) — a
throttled operation may start only while fewer than the stage's capacity
are in flight, and finishing decrements the count.  The `when` library is
an external collaborator, so its semantics is taken from the spec. -/
inductive ThrottleStep : ThrottleState → ThrottleState → Prop
  | start (s : Stage) (st : ThrottleState) (h : st s < stageCapacity s) :
      ThrottleStep st (setStage st s (st s + 1))
  | finish (s : Stage) (st : ThrottleState) (h : 0 < st s) :
      ThrottleStep st (setStage st s (st s - 1))

/-- States reachable from process start by any interleaving of starts and
finishes across all concurrently scheduled cycles. -/
inductive ThrottleReachable : ThrottleState → Prop
  | init : ThrottleReachable initialThrottle
  | step {st st2 : ThrottleState} :
      ThrottleReachable st → ThrottleStep st st2 → ThrottleReachable st2

/-! ## Claim C9: concurrency bounds -/

/-- C9: in every reachable state of the shared throttles, at most
`servers.length` fetches, 2 extracts and 8 publishes are in flight. -/
theorem concurrency_bound (st : ThrottleState) (h : ThrottleReachable st) :
    st Stage.fetch ≤ serversInit.length ∧
    st Stage.extract ≤ 2 ∧
    st Stage.publish ≤ 8 := by
  have key : ∀ s, st s ≤ stageCapacity s := by
    induction h with
    | init =>
        intro s
        simp [initialThrottle]
    | step hr hs ih =>
        intro s
        cases hs with
        | start s2 st2 hlt =>
            by_cases he : s = s2
            · subst he
              simp only [setStage]
              simp only [if_pos rfl, if_true]
              omega
            · simp only [setStage, if_neg he]
              exact ih s
        | finish s2 st2 hpos =>
            by_cases he : s = s2
            · subst he
              simp only [setStage]
              simp only [if_pos rfl, if_true]
              have := ih s
              omega
            · simp only [setStage, if_neg he]
              exact ih s
  exact ⟨key Stage.fetch, key Stage.extract, key Stage.publish⟩

/-- Witness for C9 at a concrete reachable state: one fetch in flight. -/
theorem concurrency_bound_witness :
    ThrottleReachable (setStage initialThrottle Stage.fetch 1) ∧
    setStage initialThrottle Stage.fetch 1 Stage.fetch ≤ serversInit.length ∧
    setStage initialThrottle Stage.fetch 1 Stage.extract ≤ 2 ∧
    setStage initialThrottle Stage.fetch 1 Stage.publish ≤ 8 :=
  have hreach : ThrottleReachable (setStage initialThrottle Stage.fetch 1) :=
    ThrottleReachable.step ThrottleReachable.init
      (ThrottleStep.start Stage.fetch initialThrottle (by decide))
  ⟨hreach, (concurrency_bound _ hreach).1, (concurrency_bound _ hreach).2.1,
   (concurrency_bound _ hreach).2.2⟩

/-! ## Current resolver (gfs-update.js:309-356) -/

/-- The starting guess of `copyCurrent` (gfs-update.js:316): the `wi1000`
layer of the `PRODUCT_TYPES[0]` product at the cycle after "now", forecast
offset 0, non-current. -/
def startLayer (now : Int) : Layer :=
  ⟨wi1000, ⟨"1.0", cycleNext (cycleFromDate now), 0⟩, false⟩

/-- First backward walk (gfs-update.js:317-319): step `previous()` while
the product's validity time is after "now". -/
def walkBackToNow (now : Int) (l : Layer) : Layer :=
  if h : l.product.date > now then walkBackToNow now l.previous
  else l
termination_by (l.product.date - now).toNat
decreasing_by
  simp only [Layer.previous, Product.date, CYCLE_PERIOD] at *
  omega

/-- Second backward walk (gfs-update.js:322-329): continue stepping
`previous()` until a layer file exists on disk, giving up (`none`) once the
validity time falls below the three-day age bound. -/
def searchBack (fs : FS) (threeDaysAgo : Int) (l : Layer) : Option Layer :=
  if existsFS fs l.fileKey then some l
  else if h : (Layer.previous l).product.date < threeDaysAgo then none
  else searchBack fs threeDaysAgo (Layer.previous l)
termination_by (l.product.date - threeDaysAgo).toNat
decreasing_by
  simp only [Layer.previous, Product.date, CYCLE_PERIOD] at *
  omega

/-- Outcome of `copyCurrent` (the alias materialization and S3 push are
carried as the list of alias Layers handed to `pushLayers`). -/
inductive ResolveOutcome
  | nothingRecent
  | crash
  | publish (product : Product) (aliases : List Layer)
deriving DecidableEq, Repr

/-- `copyCurrent()` (gfs-update.js:309-356).  Walk backward from the cycle
after "now" to the nominal most-recent product, keep walking until a layer
file exists (bounded by three days), then crack the found file open: the
canonical Product is rebuilt from the embedded header's `refTime` and
`forecastTime` (gfs-update.js:331-333), and one current-alias Layer per
recipe of that Product is materialized and pushed.  A found file that is
not readable layer JSON crashes the `[0].header` access. -/
def copyCurrent (fs : FS) (now : Int) : ResolveOutcome :=
  let threeDaysAgo := now - 259200000
  let nominal := walkBackToNow now (startLayer now)
  match searchBack fs threeDaysAgo nominal with
  | none => .nothingRecent
  | some found =>
      match lookupFS fs found.fileKey with
      | some (.json (r :: _)) =>
          let product : Product :=
            ⟨"1.0", cycleFromDate r.header.refTime, r.header.forecastTime⟩
          .publish product (LAYER_RECIPES.map (fun recipe => ⟨recipe, product, true⟩))
      | some (.json []) => .crash
      | some .raw => .crash
      | none => .crash

/-! ## Claim C8: the resolver trusts the embedded header -/

/-- C8: whenever the backward search finds an existing layer file, the
Product under which the current aliases are published is rebuilt from that
file's embedded header (its reference time, re-gridded, and its forecast
offset) — the conclusion does not depend on the found Layer's own
cycle/offset guess — and every published alias carries the current flag. -/
theorem current_resolver_from_header (fs : FS) (now : Int) (found : Layer)
    (r : GribRecord) (rest : List GribRecord)
    (hfind : searchBack fs (now - 259200000) (walkBackToNow now (startLayer now)) =
      some found)
    (hread : lookupFS fs found.fileKey = some (.json (r :: rest))) :
    copyCurrent fs now =
      .publish ⟨"1.0", cycleFromDate r.header.refTime, r.header.forecastTime⟩
        (LAYER_RECIPES.map (fun recipe =>
          ⟨recipe, ⟨"1.0", cycleFromDate r.header.refTime, r.header.forecastTime⟩, true⟩)) ∧
    ∀ a ∈ LAYER_RECIPES.map (fun recipe =>
        (⟨recipe, ⟨"1.0", cycleFromDate r.header.refTime, r.header.forecastTime⟩, true⟩ : Layer)),
      a.isCurrent = true ∧
      a.product = ⟨"1.0", cycleFromDate r.header.refTime, r.header.forecastTime⟩ := by
  constructor
  · simp only [copyCurrent, hfind, hread]
  · intro a ha
    simp only [List.mem_map] at ha
    obtain ⟨recipe, _, rfl⟩ := ha
    exact ⟨rfl, rfl⟩

/-- Filesystem for the C8 witness: only the file of the nominal guess
`lA` (cycle 0, offset 0) exists, but its embedded header reports reference
time -21600000 and forecast offset 3 — a different Product identity. -/
def fsD : FS := [(lA.fileKey, .json [⟨⟨-21600000, 3⟩, none⟩])]

/-- Witness for C8 at a concrete input: the walk finds `lA`, whose header
names a different Product; the aliases are published under the header's
identity, not the guess's. -/
theorem current_resolver_witness :
    searchBack fsD ((0 : Int) - 259200000) (walkBackToNow 0 (startLayer 0)) = some lA ∧
    lookupFS fsD lA.fileKey = some (.json [⟨⟨-21600000, 3⟩, none⟩]) ∧
    copyCurrent fsD 0 =
      .publish ⟨"1.0", -21600000, 3⟩
        (LAYER_RECIPES.map (fun recipe =>
          ⟨recipe, ⟨"1.0", -21600000, 3⟩, true⟩)) ∧
    lA.product ≠ (⟨"1.0", -21600000, 3⟩ : Product) := by
  have hgrid : cycleFromDate (-21600000) = -21600000 := by
    simp only [cycleFromDate, CYCLE_PERIOD]
    decide
  have hwalk : walkBackToNow 0 (startLayer 0) = lA := by
    unfold walkBackToNow
    rw [dif_pos (by decide)]
    unfold walkBackToNow
    rw [dif_neg (by decide)]
    decide
  have hfind : searchBack fsD ((0 : Int) - 259200000) (walkBackToNow 0 (startLayer 0)) =
      some lA := by
    rw [hwalk]
    unfold searchBack
    rw [if_pos (by decide)]
  have h := current_resolver_from_header fsD 0 lA ⟨⟨-21600000, 3⟩, none⟩ [] hfind (by decide)
  refine ⟨hfind, by decide, ?_, by decide⟩
  have := h.1
  rw [hgrid] at this
  exact this

end GfsUpdate
